import Mathlib

/-!
Verification development for the taxhub004 admin user-directory filter core
(search-operator parser, multi-select filter evaluator, column-visibility
persistence) and two route/utility functions (billing invoice formatting,
dynamic-component configuration).

The parser, evaluator and column-visibility hooks described by the
specification (useAdvancedSearch.ts, useFilterState.ts, useColumnVisibility.ts)
are documented in docs/PHASE_5_ENTERPRISE_FEATURES_IMPLEMENTATION.md but their
TypeScript sources are not part of the provided tree, so those components are
modelled from the specification text; the invoice route and the
dynamic-import utility are embedded directly from their TypeScript sources.

Strings are Lean `String`s; the character-level helpers below work on
`String.data` so that every definition is executable and kernel-reducible.
-/

/-- Lowercase every character of a character list (case-insensitive compare). -/
def lowerL (l : List Char) : List Char := l.map Char.toLower

/-- Remove leading and trailing whitespace from a character list. -/
def trimL (l : List Char) : List Char :=
  ((l.dropWhile Char.isWhitespace).reverse.dropWhile Char.isWhitespace).reverse

/-- Boolean test: the first list is a prefix of the second. -/
def listPre : List Char → List Char → Bool
  | [], _ => true
  | _ :: _, [] => false
  | a :: as, b :: bs => a == b && listPre as bs

/-- Boolean test: the first list occurs as a contiguous sublist of the second. -/
def listSub (p : List Char) : List Char → Bool
  | [] => p.isEmpty
  | c :: cs => listPre p (c :: cs) || listSub p cs

/-- Boolean test: the first list is a suffix of the second. -/
def listSuf (p l : List Char) : Bool := listPre p.reverse l.reverse

/-- Characters after the first occurrence of the at sign, if any. -/
def afterAt : List Char → Option (List Char)
  | [] => none
  | c :: cs => if c = '@' then some cs else afterAt cs

/-- Modelled from the spec: the search operators of useAdvancedSearch.ts
(section 4.1 of the specification); the TypeScript source is not in the tree. -/
inductive Operator
  | contains
  | exactMatch
  | startsWith
  | endsWith
  | emailDomain
deriving DecidableEq, Repr

/-- Modelled from the spec: ParsedQuery, the output of `parse`. -/
structure ParsedQuery where
  operator : Operator
  operand : String
deriving DecidableEq, Repr

/-- Modelled from the spec: operator detection from useAdvancedSearch.ts,
checked in the specified precedence order against the trimmed character list:
leading equals sign, then leading caret, then leading at sign, then trailing
dollar sign (stripped from the operand), otherwise `contains`. -/
def parseChars (t : List Char) : Operator × List Char :=
  if t.head? = some '=' then (Operator.exactMatch, t.tail)
  else if t.head? = some '^' then (Operator.startsWith, t.tail)
  else if t.head? = some '@' then (Operator.emailDomain, t.tail)
  else if t.getLast? = some '$' then (Operator.endsWith, t.dropLast)
  else (Operator.contains, t)

/-- Modelled from the spec: parseSearchQuery of useAdvancedSearch.ts —
trim the input, detect the operator, return operator plus operand. -/
def parse (searchText : String) : ParsedQuery :=
  { operator := (parseChars (trimL searchText.data)).1
  , operand := String.mk (parseChars (trimL searchText.data)).2 }

/-- Modelled from the spec: the searchable text fields of a user record
(name, email, phone, company, department). -/
inductive FieldId
  | name
  | email
  | phone
  | company
  | department
deriving DecidableEq, Repr

/-- Modelled from the spec: the user record as seen by the filter core —
searchable text fields plus the categorical role and status fields; the
email field may be absent. -/
structure Record where
  id : String
  name : String
  email : Option String
  phone : String
  company : String
  department : String
  role : String
  status : String
deriving DecidableEq, Repr

/-- Value of a searchable field on a record; the email field is optional. -/
def fieldValue (r : Record) : FieldId → Option String
  | FieldId.name => some r.name
  | FieldId.email => r.email
  | FieldId.phone => some r.phone
  | FieldId.company => some r.company
  | FieldId.department => some r.department

/-- Modelled from the spec: the per-field string relation of each non-email
operator, applied case-insensitively. -/
def strMatches (op : Operator) (operand value : String) : Bool :=
  match op with
  | Operator.contains => listSub (lowerL operand.data) (lowerL value.data)
  | Operator.exactMatch => lowerL value.data == lowerL operand.data
  | Operator.startsWith => listPre (lowerL operand.data) (lowerL value.data)
  | Operator.endsWith => listSuf (lowerL operand.data) (lowerL value.data)
  | Operator.emailDomain => false

/-- One searchable field of a record satisfies the string relation; an
absent field never satisfies it. -/
def fieldSat (op : Operator) (operand : String) (r : Record) (f : FieldId) : Bool :=
  match fieldValue r f with
  | some v => strMatches op operand v
  | none => false

/-- Modelled from the spec: emailDomain matching — only the email field is
consulted; the domain portion (substring after the at sign) must equal the
operand case-insensitively; a record without an email field never matches. -/
def emailDomainMatches (operand : String) (r : Record) : Bool :=
  match r.email with
  | none => false
  | some e =>
    match afterAt (lowerL e.data) with
    | none => false
    | some dom => dom == lowerL operand.data

/-- Modelled from the spec: the search predicate of the evaluator — an empty
operand from empty or whitespace-only input is the neutral predicate matching
every record; emailDomain consults only the email field; the other operators
hold if ANY configured searchable field satisfies the string relation. -/
def searchMatches (q : ParsedQuery) (fields : List FieldId) (r : Record) : Bool :=
  match q.operator with
  | Operator.emailDomain => emailDomainMatches q.operand r
  | Operator.contains =>
    if q.operand.data.isEmpty then true
    else fields.any (fieldSat Operator.contains q.operand r)
  | op => fields.any (fieldSat op q.operand r)

/-- Modelled from the spec: FilterState of useFilterState.ts — raw search
text plus OR-combined multi-select role and status selections. -/
structure FilterState where
  searchText : String
  selectedRoles : List String
  selectedStatuses : List String
deriving DecidableEq, Repr

/-- Modelled from the spec: the role dimension — empty selection matches all,
otherwise the record's role must be a selected value. -/
def rolePred (roles : List String) (r : Record) : Bool :=
  roles.isEmpty || roles.contains r.role

/-- Modelled from the spec: the status dimension — empty selection matches
all, otherwise the record's status must be a selected value. -/
def statusPred (statuses : List String) (r : Record) : Bool :=
  statuses.isEmpty || statuses.contains r.status

/-- Modelled from the spec: a record is included iff the role, status and
search predicates all hold (AND across dimensions). -/
def includeRecord (fs : FilterState) (fields : List FieldId) (r : Record) : Bool :=
  rolePred fs.selectedRoles r && statusPred fs.selectedStatuses r
    && searchMatches (parse fs.searchText) fields r

/-- Modelled from the spec: FilterResult — the filtered records plus the
total, filtered and selected counts. -/
structure FilterResult where
  records : List Record
  totalCount : Nat
  filteredCount : Nat
  selectedCount : Nat
deriving DecidableEq, Repr

/-- Modelled from the spec: the evaluator — a single filtering pass;
selectedCount counts output records whose id is in the caller-supplied
selected-id set. -/
def evaluate (records : List Record) (fs : FilterState) (fields : List FieldId)
    (selectedIds : List String) : FilterResult :=
  { records := records.filter (includeRecord fs fields)
  , totalCount := records.length
  , filteredCount := (records.filter (includeRecord fs fields)).length
  , selectedCount :=
      ((records.filter (includeRecord fs fields)).filter
        (fun r => selectedIds.contains r.id)).length }

/-- Concrete record from the specification's emailDomain scenario. -/
def rJohn : Record :=
  { id := "1", name := "John Doe", email := some "john@gmail.com"
  , phone := "", company := "", department := "", role := "ADMIN", status := "ACTIVE" }

/-- Concrete record from the specification's emailDomain scenario. -/
def rJane : Record :=
  { id := "2", name := "Jane Lee", email := some "jane@yahoo.com"
  , phone := "", company := "", department := "", role := "LEAD", status := "INACTIVE" }

/-- The five configured searchable fields. -/
def allFields : List FieldId :=
  [FieldId.name, FieldId.email, FieldId.phone, FieldId.company, FieldId.department]

/-- The empty filter state: no search text, no role or status selections. -/
def emptyFS : FilterState := { searchText := "", selectedRoles := [], selectedStatuses := [] }

/-- Filter state selecting only the ADMIN role, for concrete checks. -/
def adminFS : FilterState :=
  { searchText := "", selectedRoles := ["ADMIN"], selectedStatuses := [] }

/-- Filter state of the specification's emailDomain scenario. -/
def gmailFS : FilterState :=
  { searchText := "@gmail.com", selectedRoles := [], selectedStatuses := [] }

/-- A record with no email field, for the emailDomain never-match check. -/
def rNoEmail : Record :=
  { id := "3", name := "No Mail", email := none
  , phone := "", company := "", department := "", role := "ADMIN", status := "ACTIVE" }

/-- Modelled from the spec: one entry of the persisted ColumnConfig array of
useColumnVisibility.ts — a column identifier, its label, and its visibility. -/
structure ColumnConfig where
  id : String
  label : String
  visible : Bool
deriving DecidableEq, Repr

/-- Modelled from the spec: the default column configuration — Name, Email,
Phone, Role, Status and Created At visible; Department, Position and
Last Login hidden. -/
def defaultColumns : List ColumnConfig :=
  [ { id := "name", label := "Name", visible := true }
  , { id := "email", label := "Email", visible := true }
  , { id := "phone", label := "Phone", visible := true }
  , { id := "role", label := "Role", visible := true }
  , { id := "status", label := "Status", visible := true }
  , { id := "createdAt", label := "Created At", visible := true }
  , { id := "department", label := "Department", visible := false }
  , { id := "position", label := "Position", visible := false }
  , { id := "lastLogin", label := "Last Login", visible := false } ]

/-- Modelled from the spec: load of useColumnVisibility.ts (its TypeScript
source is not in the tree). The argument models the persisted value: `none`
stands for both a missing storage key and a value that fails to deserialize,
which the specification collapses into the same outcome; on either, and on a
deserialized empty array (excluded by the invariant that the column set is
never empty, hence treated as a failed parse), the default configuration is
substituted and no error is raised. -/
def loadColumns (saved : Option (List ColumnConfig)) : List ColumnConfig :=
  match saved with
  | none => defaultColumns
  | some cols => if cols.isEmpty then defaultColumns else cols

/-- Invoice row selected by the billing invoices GET handler
(src/app/api/billing/invoices/route.ts): id, number, totalCents, currency,
status, paidAt, createdAt. Nullable columns are Options; timestamps are kept
as their ISO strings. -/
structure Invoice where
  id : String
  number : Option String
  totalCents : Int
  currency : Option String
  status : String
  paidAt : Option String
  createdAt : String
deriving DecidableEq, Repr

/-- Shape of one element of formattedInvoices in the GET handler. The amount
field of the source is totalCents divided by 100 as a floating-point number;
it is kept here in cents. -/
structure FormattedInvoice where
  id : String
  invoiceNumber : String
  date : String
  amountCents : Int
  currency : String
  status : String
  pdfUrl : Option String
deriving DecidableEq, Repr

/-- JavaScript `a || b` on a nullable string: null, undefined and the empty
string are falsy and select the fallback. -/
def jsStringOr (s : Option String) (fallback : String) : String :=
  match s with
  | some v => if v.isEmpty then fallback else v
  | none => fallback

/-- Status formatting of the GET handler, from route.ts line 40:
status PAID maps to paid, else a non-null paidAt maps to paid, else pending. -/
def formatStatus (inv : Invoice) : String :=
  if inv.status = "PAID" then "paid"
  else if inv.paidAt.isSome then "paid"
  else "pending"

/-- The per-invoice mapping building formattedInvoices in the GET handler. -/
def formatInvoice (inv : Invoice) : FormattedInvoice :=
  { id := inv.id
  , invoiceNumber := jsStringOr inv.number ("INV-" ++ String.mk (inv.id.data.take 8))
  , date := inv.createdAt
  , amountCents := inv.totalCents
  , currency := jsStringOr inv.currency "USD"
  , status := formatStatus inv
  , pdfUrl := none }

/-- The map over the fetched invoices producing the response rows. -/
def formatInvoices (invs : List Invoice) : List FormattedInvoice :=
  invs.map formatInvoice

/-- The five admitted inputs of getDynamicComponentConfig
(src/lib/frontend-optimization/dynamic-imports.ts). -/
inductive DynComponentType
  | admin
  | modal
  | modalHeavy
  | page
  | feature
deriving DecidableEq, Repr

/-- The string each admitted input stands for; the third variant is the
string literal type with a hyphen. -/
def dynTypeKey : DynComponentType → String
  | DynComponentType.admin => "admin"
  | DynComponentType.modal => "modal"
  | DynComponentType.modalHeavy => "modal-heavy"
  | DynComponentType.page => "page"
  | DynComponentType.feature => "feature"

/-- DynamicComponentConfig of dynamic-imports.ts; the optional loading
render function is modelled by whether it is defined. -/
structure DynamicComponentConfig where
  hasLoading : Bool
  ssr : Bool
deriving DecidableEq, Repr

/-- The feature entry of the configs table (loading defined, ssr false). -/
def featureConfig : DynamicComponentConfig := { hasLoading := true, ssr := false }

/-- The string-keyed configs table of getDynamicComponentConfig; note the
underscore in its modal_heavy key, taken verbatim from the source. -/
def dynConfigs : List (String × DynamicComponentConfig) :=
  [ ("admin", { hasLoading := true, ssr := false })
  , ("modal", { hasLoading := true, ssr := false })
  , ("modal_heavy", { hasLoading := true, ssr := false })
  , ("page", { hasLoading := true, ssr := true })
  , ("feature", featureConfig) ]

/-- getDynamicComponentConfig: look the input up in the table by its string
key and fall back to the feature entry when absent. -/
def getDynamicComponentConfig (t : DynComponentType) : DynamicComponentConfig :=
  match dynConfigs.lookup (dynTypeKey t) with
  | some c => c
  | none => featureConfig

/-- Sample invoice row: not marked PAID but carrying a payment timestamp. -/
def invSample : Invoice :=
  { id := "inv_123456789", number := none, totalCents := 12500, currency := none
  , status := "SENT", paidAt := some "2025-01-02T00:00:00Z"
  , createdAt := "2025-01-01T00:00:00Z" }

/-! Helper lemmas shared by the claim theorems. -/

theorem contains_true_iff (l : List String) (a : String) : l.contains a = true ↔ a ∈ l := by
  simp [List.contains, List.elem_iff]

theorem rolePred_true_iff (roles : List String) (r : Record) :
    rolePred roles r = true ↔ roles = [] ∨ r.role ∈ roles := by
  simp [rolePred, Bool.or_eq_true, List.isEmpty_iff, contains_true_iff]

theorem statusPred_true_iff (statuses : List String) (r : Record) :
    statusPred statuses r = true ↔ statuses = [] ∨ r.status ∈ statuses := by
  simp [statusPred, Bool.or_eq_true, List.isEmpty_iff, contains_true_iff]

theorem mem_evaluate (records : List Record) (fs : FilterState) (fields : List FieldId)
    (sel : List String) (r : Record) :
    r ∈ (evaluate records fs fields sel).records ↔
      r ∈ records ∧ includeRecord fs fields r = true := by
  show r ∈ records.filter (includeRecord fs fields) ↔ _
  simp [List.mem_filter]

theorem parse_of_trim_nil (s : String) (h : trimL s.data = []) :
    parse s = { operator := Operator.contains, operand := "" } := by
  unfold parse
  rw [h]
  rfl

theorem searchMatches_neutral (fields : List FieldId) (r : Record) :
    searchMatches { operator := Operator.contains, operand := "" } fields r = true := rfl

theorem filter_idem {α : Type} (p : α → Bool) (l : List α) :
    (l.filter p).filter p = l.filter p := by
  induction l with
  | nil => rfl
  | cons a t ih => cases h : p a <;> simp [List.filter_cons, h, ih]

/-! Claim theorems. -/

/-- C1: evaluate includes a record in its output iff all three dimension
predicates hold for that record: the role selection is empty or contains the
record's role, the status selection is empty or contains the record's status,
and the parsed search predicate holds; an empty multi-select set means
match-all for that dimension, never match-none. -/
theorem evaluate_mem_iff_dimensions (records : List Record) (fs : FilterState)
    (fields : List FieldId) (sel : List String) (r : Record) :
    r ∈ (evaluate records fs fields sel).records ↔
      r ∈ records
      ∧ (fs.selectedRoles = [] ∨ r.role ∈ fs.selectedRoles)
      ∧ (fs.selectedStatuses = [] ∨ r.status ∈ fs.selectedStatuses)
      ∧ searchMatches (parse fs.searchText) fields r = true := by
  rw [mem_evaluate]
  simp only [includeRecord, Bool.and_eq_true, rolePred_true_iff, statusPred_true_iff]
  tauto

/-- Witness for C1 at the specification's two-record scenario. -/
theorem evaluate_mem_iff_dimensions_witness :
    rJohn ∈ (evaluate [rJohn, rJane] emptyFS allFields []).records ↔
      rJohn ∈ [rJohn, rJane]
      ∧ (emptyFS.selectedRoles = [] ∨ rJohn.role ∈ emptyFS.selectedRoles)
      ∧ (emptyFS.selectedStatuses = [] ∨ rJohn.status ∈ emptyFS.selectedStatuses)
      ∧ searchMatches (parse emptyFS.searchText) allFields rJohn = true :=
  evaluate_mem_iff_dimensions [rJohn, rJane] emptyFS allFields [] rJohn

/-- C2: parse is total by construction, and operator detection follows the
precedence order on the trimmed input: leading equals yields exactMatch,
leading caret yields startsWith, leading at sign yields emailDomain, a
trailing dollar yields endsWith with the dollar stripped from the operand,
and anything else degrades to contains with the trimmed text as operand;
including the specification's five concrete examples. -/
theorem parse_operator_spec :
    (∀ rest : List Char, parseChars ('=' :: rest) = (Operator.exactMatch, rest))
    ∧ (∀ rest : List Char, parseChars ('^' :: rest) = (Operator.startsWith, rest))
    ∧ (∀ rest : List Char, parseChars ('@' :: rest) = (Operator.emailDomain, rest))
    ∧ (∀ front : List Char, front.head? ≠ some '=' → front.head? ≠ some '^' →
        front.head? ≠ some '@' →
        parseChars (front ++ ['$']) = (Operator.endsWith, front))
    ∧ (∀ t : List Char, t.head? ≠ some '=' → t.head? ≠ some '^' → t.head? ≠ some '@' →
        t.getLast? ≠ some '$' → parseChars t = (Operator.contains, t))
    ∧ parse "=John Smith" = { operator := Operator.exactMatch, operand := "John Smith" }
    ∧ (parse "^john").operator = Operator.startsWith ∧ (parse "^john").operand = "john"
    ∧ (parse "smith$").operator = Operator.endsWith ∧ (parse "smith$").operand = "smith"
    ∧ (parse "@gmail.com").operator = Operator.emailDomain
    ∧ (parse "@gmail.com").operand = "gmail.com"
    ∧ (parse "john").operator = Operator.contains ∧ (parse "john").operand = "john" := by
  refine ⟨?_, ?_, ?_, ?_, ?_, by decide, by decide, by decide, by decide, by decide,
    by decide, by decide, by decide, by decide⟩
  · intro rest
    simp [parseChars]
  · intro rest
    simp [parseChars]
  · intro rest
    simp [parseChars]
  · intro front h1 h2 h3
    cases front with
    | nil => decide
    | cons c cs =>
      have h1c : (c :: (cs ++ ['$'])).head? ≠ some '=' := by simpa using h1
      have h2c : (c :: (cs ++ ['$'])).head? ≠ some '^' := by simpa using h2
      have h3c : (c :: (cs ++ ['$'])).head? ≠ some '@' := by simpa using h3
      have h4 : (c :: (cs ++ ['$'])).getLast? = some '$' := by
        rw [← List.cons_append]
        exact List.getLast?_concat _
      show parseChars (c :: (cs ++ ['$'])) = _
      unfold parseChars
      rw [if_neg h1c, if_neg h2c, if_neg h3c, if_pos h4, ← List.cons_append,
        List.dropLast_concat]
  · intro t h1 h2 h3 h4
    unfold parseChars
    rw [if_neg h1, if_neg h2, if_neg h3, if_neg h4]

/-- Witness for C2: the trailing-dollar and default clauses instantiated. -/
theorem parse_operator_spec_witness :
    parseChars ['s', '$'] = (Operator.endsWith, ['s'])
    ∧ parseChars ['j', 'o'] = (Operator.contains, ['j', 'o']) :=
  ⟨parse_operator_spec.2.2.2.1 ['s'] (by decide) (by decide) (by decide),
   parse_operator_spec.2.2.2.2.1 ['j', 'o'] (by decide) (by decide) (by decide) (by decide)⟩

/-- C3: an empty FilterState (search text trimming to nothing, no role or
status selections) yields a neutral search predicate matching every record,
and on a non-empty record sequence the filtered count equals the input
length. -/
theorem evaluate_empty_filter (records : List Record) (fields : List FieldId)
    (sel : List String) (fs : FilterState)
    (hsearch : trimL fs.searchText.data = [])
    (hroles : fs.selectedRoles = [])
    (hstatuses : fs.selectedStatuses = [])
    (_hne : records ≠ []) :
    (∀ r : Record, searchMatches (parse fs.searchText) fields r = true)
    ∧ (evaluate records fs fields sel).filteredCount = records.length := by
  have hm : ∀ r : Record, searchMatches (parse fs.searchText) fields r = true := by
    intro r
    rw [parse_of_trim_nil fs.searchText hsearch]
    exact searchMatches_neutral fields r
  refine ⟨hm, ?_⟩
  show (records.filter (includeRecord fs fields)).length = records.length
  have hall : records.filter (includeRecord fs fields) = records := by
    rw [List.filter_eq_self]
    intro a _
    simp [includeRecord, rolePred, statusPred, hroles, hstatuses, hm a]
  rw [hall]

/-- Witness for C3 at a concrete one-record input and the empty FilterState. -/
theorem evaluate_empty_filter_witness :
    (evaluate [rJohn] emptyFS allFields []).filteredCount = [rJohn].length :=
  (evaluate_empty_filter [rJohn] allFields [] emptyFS (by decide) rfl rfl (by decide)).2

/-- C4 counterexample: with an empty role selection the evaluator keeps a
record whose role is not a member of the (empty) selection, so the claim as
stated fails at this concrete input. -/
theorem evaluate_role_sound_counterexample :
    rJohn ∈ (evaluate [rJohn] emptyFS allFields []).records
    ∧ rJohn.role ∉ emptyFS.selectedRoles := by
  decide

/-- C4 (amended): for any non-empty selectedRoles, every record in the output
of evaluate has a role that is a member of selectedRoles. -/
theorem evaluate_role_sound (records : List Record) (fs : FilterState)
    (fields : List FieldId) (sel : List String) (r : Record)
    (hne : fs.selectedRoles ≠ [])
    (hmem : r ∈ (evaluate records fs fields sel).records) :
    r.role ∈ fs.selectedRoles := by
  have hinc := ((mem_evaluate records fs fields sel r).mp hmem).2
  have hrole : rolePred fs.selectedRoles r = true := by
    simp only [includeRecord, Bool.and_eq_true] at hinc
    exact hinc.1.1
  rcases (rolePred_true_iff fs.selectedRoles r).mp hrole with h | h
  · exact absurd h hne
  · exact h

/-- Witness for C4 (amended) at a concrete non-empty role selection. -/
theorem evaluate_role_sound_witness : rJohn.role ∈ adminFS.selectedRoles :=
  evaluate_role_sound [rJohn] adminFS allFields [] rJohn (by decide) (by decide)

/-- C5: under the emailDomain operator a record matches iff the domain
portion of its email (the substring after the at sign) equals the operand
case-insensitively; no other field is consulted (the searchable-field set is
irrelevant), and a record without an email field never matches; in the
two-record scenario with search text at-gmail.com and no selections, only
the record with email john at gmail.com survives. -/
theorem emailDomain_spec :
    (∀ (q : ParsedQuery) (fields fields2 : List FieldId) (r : Record),
      q.operator = Operator.emailDomain →
      searchMatches q fields r = searchMatches q fields2 r)
    ∧ (∀ (q : ParsedQuery) (fields : List FieldId) (r : Record),
      q.operator = Operator.emailDomain → r.email = none →
      searchMatches q fields r = false)
    ∧ (∀ (q : ParsedQuery) (fields : List FieldId) (r : Record) (e : String),
      q.operator = Operator.emailDomain → r.email = some e →
      (searchMatches q fields r = true ↔
        afterAt (lowerL e.data) = some (lowerL q.operand.data)))
    ∧ (evaluate [rJohn, rJane] gmailFS allFields []).records = [rJohn] := by
  refine ⟨?_, ?_, ?_, by decide⟩
  · intro q f1 f2 r hq
    obtain ⟨op, od⟩ := q
    simp only at hq
    subst hq
    rfl
  · intro q fields r hq he
    obtain ⟨op, od⟩ := q
    simp only at hq
    subst hq
    show emailDomainMatches od r = false
    simp [emailDomainMatches, he]
  · intro q fields r e hq he
    obtain ⟨op, od⟩ := q
    simp only at hq
    subst hq
    show emailDomainMatches od r = true ↔ _
    cases ha : afterAt (lowerL e.data) with
    | none => simp [emailDomainMatches, he, ha]
    | some dom => simp [emailDomainMatches, he, ha]

/-- Witness for C5: a record without an email field never matches. -/
theorem emailDomain_spec_witness :
    searchMatches { operator := Operator.emailDomain, operand := "gmail.com" }
      allFields rNoEmail = false :=
  emailDomain_spec.2.1 { operator := Operator.emailDomain, operand := "gmail.com" }
    allFields rNoEmail rfl rfl

/-- C6: the records in the output of evaluate appear in the same relative
order as in the input sequence — the output is a sublist of the input
(stable filter, never a reordering or sort). -/
theorem evaluate_preserves_order (records : List Record) (fs : FilterState)
    (fields : List FieldId) (sel : List String) :
    List.Sublist (evaluate records fs fields sel).records records := by
  show List.Sublist (records.filter (includeRecord fs fields)) records
  exact List.filter_sublist records

/-- C7: evaluate is idempotent under re-filtering — filtering the already
filtered records with the same FilterState and field set leaves the filtered
count unchanged. -/
theorem evaluate_idempotent (records : List Record) (fs : FilterState)
    (fields : List FieldId) (sel sel2 : List String) :
    (evaluate (evaluate records fs fields sel).records fs fields sel2).filteredCount
      = (evaluate records fs fields sel).filteredCount := by
  show ((records.filter (includeRecord fs fields)).filter (includeRecord fs fields)).length
      = (records.filter (includeRecord fs fields)).length
  rw [filter_idem]

/-- C8: loading the column-visibility state never fails — a missing or
unparsable persisted value (both modelled by none) yields the default
configuration, and the returned column set is never empty. -/
theorem loadColumns_safe :
    loadColumns none = defaultColumns ∧ ∀ saved, loadColumns saved ≠ [] := by
  refine ⟨rfl, ?_⟩
  intro saved
  cases saved with
  | none => decide
  | some cols =>
    cases cols with
    | nil => decide
    | cons c cs => simp [loadColumns]

/-- C9: every row produced by the billing invoices GET handler has status
paid exactly when the stored status is PAID or paidAt is non-null, pending
otherwise, and the declared overdue value is never produced. -/
theorem invoice_status_spec :
    (∀ (inv : Invoice),
      ((formatInvoice inv).status = "paid" ↔ (inv.status = "PAID" ∨ inv.paidAt ≠ none))
      ∧ ((formatInvoice inv).status = "pending" ↔
          ¬(inv.status = "PAID" ∨ inv.paidAt ≠ none)))
    ∧ (∀ (invs : List Invoice) (row : FormattedInvoice),
      row ∈ formatInvoices invs → row.status ≠ "overdue") := by
  have hstat : ∀ inv : Invoice, (formatInvoice inv).status = formatStatus inv :=
    fun _ => rfl
  constructor
  · intro inv
    rw [hstat]
    by_cases h : inv.status = "PAID"
    · cases hp : inv.paidAt <;> simp [formatStatus, h, hp]
    · cases hp : inv.paidAt <;> simp [formatStatus, h, hp]
  · intro invs row hmem
    rcases List.mem_map.mp hmem with ⟨inv, _, hrow⟩
    rw [← hrow, hstat]
    by_cases h : inv.status = "PAID"
    · simp [formatStatus, h]
    · cases hp : inv.paidAt <;> simp [formatStatus, h, hp]

/-- Witness for C9: a concrete handler row is never reported overdue. -/
theorem invoice_status_spec_witness :
    (formatInvoice invSample).status ≠ "overdue" :=
  invoice_status_spec.2 [invSample] (formatInvoice invSample) (by decide)

/-- C10: every admitted input of getDynamicComponentConfig gets a
configuration with a defined loading fallback, and the modal-heavy input
falls through to the feature fallback (ssr false) because the table's key is
spelled modal_heavy and never matches the hyphenated input. -/
theorem dyn_config_spec :
    (∀ t : DynComponentType, (getDynamicComponentConfig t).hasLoading = true)
    ∧ getDynamicComponentConfig DynComponentType.modalHeavy = featureConfig
    ∧ (getDynamicComponentConfig DynComponentType.modalHeavy).ssr = false
    ∧ dynConfigs.lookup (dynTypeKey DynComponentType.modalHeavy) = none := by
  refine ⟨?_, by decide, by decide, by decide⟩
  intro t
  cases t <;> decide
